import Mathlib

/-!
Shallow embedding of `src/ilp_recommendation_example.py` (gym-class ILP
recommendation: personalization, diversity bonus, top-2 plans) and proofs of
the specification's claims about it.

Modelling conventions:
* The Python dict `CLASSES` (insertion ordered, unique keys) is a list of
  `(name, info)` pairs; dict iteration is list iteration.
* Python numbers appearing in this program are integers (the float literal
  `DIVERSITY_BONUS = 2.0` represents exactly 2), so all arithmetic is `Int`.
* A PuLP model instance is represented semantically: a `ProblemSpec` recording
  build inputs, plus a decidable feasibility predicate `Feasible` and an
  `objective` function over binary assignments, each conjunct/summand mirrors
  one `problem +=` line of `build_problem`.
* `problem.solve()` (the external CBC solver) is an opaque oracle
  `ProblemSpec → SolveResult`; PuLP's `LpStatusOptimal` is the integer 1,
  matching the code's `problem.status != 1` checks.
* Python sets of strings are lists up to membership; `list({...})` is `dedup`.
-/

/-- Fixed enumerated set of time slots; `TIME_SLOTS = ["morning", "afternoon",
"evening"]` in the source, and the spec's data model fixes `timeslot` to this
enumerated set. -/
inductive TimeSlot
| morning
| afternoon
| evening
deriving DecidableEq

/-- Attribute record of one gym class: one value of the `CLASSES` dict. -/
structure ClassInfo where
  price : Int
  duration : Int
  time_slot : TimeSlot
  category : String
  preference_score : Int
deriving DecidableEq

/-- A catalog: the `classes` dict, name -> attributes, in insertion order. -/
abbrev Catalog := List (String × ClassInfo)

/-- The built-in six-class catalog `CLASSES` of the source. -/
def CLASSES : Catalog := [
  ("Yoga",     ⟨15, 60, TimeSlot.morning,   "mind_body", 8⟩),
  ("HIIT",     ⟨20, 45, TimeSlot.morning,   "cardio",    9⟩),
  ("Pilates",  ⟨18, 60, TimeSlot.afternoon, "mind_body", 7⟩),
  ("Spinning", ⟨22, 45, TimeSlot.afternoon, "cardio",    6⟩),
  ("Boxing",   ⟨25, 60, TimeSlot.evening,   "strength",  10⟩),
  ("Zumba",    ⟨12, 45, TimeSlot.evening,   "cardio",    5⟩)]

/-- Default member constraint `MAX_BUDGET = 50`. -/
def MAX_BUDGET : Int := 50

/-- Default member constraint `MAX_CLASSES = 3`. -/
def MAX_CLASSES : Int := 3

/-- Default member constraint `MAX_DURATION = 150`. -/
def MAX_DURATION : Int := 150

/-- The module constant `TIME_SLOTS`; `build_problem` iterates exactly this
list when adding the one-class-per-slot constraints. -/
def TIME_SLOTS : List TimeSlot := [TimeSlot.morning, TimeSlot.afternoon, TimeSlot.evening]

/-- A user preference-override dict: class name -> personalized score. -/
abbrev PrefMap := List (String × Int)

/-- The `USER_PROFILES` table; the `"default"` profile maps to Python `None`. -/
def USER_PROFILES : List (String × Option PrefMap) := [
  ("default", none),
  ("cardio_lover",
    some [("Yoga", 3), ("HIIT", 10), ("Pilates", 2), ("Spinning", 9), ("Boxing", 6), ("Zumba", 9)]),
  ("budget_focused",
    some [("Yoga", 7), ("HIIT", 4), ("Pilates", 8), ("Spinning", 3), ("Boxing", 2), ("Zumba", 10)]),
  ("mind_body_fan",
    some [("Yoga", 10), ("HIIT", 2), ("Pilates", 10), ("Spinning", 1), ("Boxing", 1), ("Zumba", 4)]),
  ("mixed",
    some [("Yoga", 5), ("HIIT", 10), ("Pilates", 4), ("Spinning", 8), ("Boxing", 7), ("Zumba", 9)])]

/-- The module constant `CATEGORIES` (documentation only in the source; the
model derives categories from the catalog via `get_categories`). -/
def CATEGORIES : List String := ["cardio", "mind_body", "strength"]

/-- `DIVERSITY_BONUS = 2.0`: the float literal denotes exactly the integer 2. -/
def DIVERSITY_BONUS : Int := 2

/-- The polymorphic `user_id_or_preferences` argument of the source:
a profile name (`str`), an explicit override dict (`dict`), or `None`. -/
inductive UserArg
| byName (s : String)
| byDict (m : PrefMap)
| byNone
deriving DecidableEq

/-- `get_preferences_for_user`: `None -> None`; a dict is used directly; a
string is looked up with `USER_PROFILES.get(s, USER_PROFILES["default"])`,
where `USER_PROFILES["default"]` is `None`. -/
def get_preferences_for_user (user_id_or_preferences : UserArg) : Option PrefMap :=
  match user_id_or_preferences with
  | UserArg.byNone => none
  | UserArg.byDict m => some m
  | UserArg.byName s => ((USER_PROFILES.find? (fun p => p.1 = s)).map (fun p => p.2)).getD none

/-- The default score `CLASSES[class_name]["preference_score"]` taken from the
module-level `CLASSES` dict (as in the source's `get_score`). The `none`
branch is unreachable in the program (Python would raise `KeyError`): every
caller passes a key of `CLASSES`. -/
def CLASSES_default_score (class_name : String) : Int :=
  match CLASSES.find? (fun p => p.1 = class_name) with
  | some p => p.2.preference_score
  | none => 0

/-- `get_score`: the user's override when `user_preferences` is truthy and has
the key, else the catalog default. An empty dict behaves like `None` (lookup
fails either way). -/
def get_score (class_name : String) (user_preferences : Option PrefMap) : Int :=
  match user_preferences with
  | some prefs =>
    match prefs.find? (fun p => p.1 = class_name) with
    | some p => p.2
    | none => CLASSES_default_score class_name
  | none => CLASSES_default_score class_name

/-- `get_categories`: the distinct categories of a catalog
(`list({classes[c]["category"] for c in classes})`). -/
def get_categories (classes : Catalog) : List String :=
  (classes.map (fun p => p.2.category)).dedup

/-- Value of a binary LP variable fixed by a Boolean assignment. -/
def b2i (b : Bool) : Int := if b then 1 else 0

/-- `lpSum(x[a] for a in l)` under an assignment `g`. -/
def bitSum (l : List α) (g : α → Bool) : Int :=
  (l.map (fun a => b2i (g a))).sum

/-- `lpSum(w(a) * x[a] for a in l)` under an assignment `g`. -/
def weightSum (l : List α) (w : α → Int) (g : α → Bool) : Int :=
  (l.map (fun a => w a * b2i (g a))).sum

/-- `lpSum(1 - x[c] for c in exclude_set)` under an assignment `x`. -/
def missSum (exclude_set : List String) (x : String → Bool) : Int :=
  (exclude_set.map (fun c => 1 - b2i (x c))).sum

/-- One model instance as built by `build_problem(classes, user_preferences,
max_budget, max_classes, max_duration, diversity_bonus, exclude_set)`: the
build inputs determine the LP's variables, objective and constraints, which
are given semantically by `Feasible` and `objective` below. -/
structure ProblemSpec where
  classes : Catalog
  prefs : Option PrefMap
  max_budget : Int
  max_classes : Int
  max_duration : Int
  diversity_bonus : Int
  exclude_set : Option (List String)
deriving DecidableEq

/-- Objective part `satisfaction = lpSum(get_score(c) * x[c] for c in classes)`. -/
def satisfactionSum (p : ProblemSpec) (x : String → Bool) : Int :=
  weightSum p.classes (fun c => get_score c.1 p.prefs) (fun c => x c.1)

/-- Objective part `diversity = lpSum(diversity_bonus * y[cat] for cat in categories)`. -/
def diversitySum (p : ProblemSpec) (y : String → Bool) : Int :=
  weightSum (get_categories p.classes) (fun _ => p.diversity_bonus) y

/-- The LP objective `satisfaction + diversity` of a built model instance. -/
def objective (p : ProblemSpec) (x y : String → Bool) : Int :=
  satisfactionSum p x + diversitySum p y

/-- Budget constraint LHS `lpSum(classes[c]["price"] * x[c] for c in classes)`. -/
def priceSum (p : ProblemSpec) (x : String → Bool) : Int :=
  weightSum p.classes (fun c => c.2.price) (fun c => x c.1)

/-- Count constraint LHS `lpSum(x[c] for c in classes)`. -/
def countSum (p : ProblemSpec) (x : String → Bool) : Int :=
  bitSum p.classes (fun c => x c.1)

/-- Duration constraint LHS `lpSum(classes[c]["duration"] * x[c] for c in classes)`. -/
def durationSum (p : ProblemSpec) (x : String → Bool) : Int :=
  weightSum p.classes (fun c => c.2.duration) (fun c => x c.1)

/-- Slot constraint LHS: `lpSum(x[c] for c in in_slot)` with
`in_slot = [c for c in classes if classes[c]["time_slot"] == slot]`. -/
def slotCount (p : ProblemSpec) (slot : TimeSlot) (x : String → Bool) : Int :=
  bitSum (p.classes.filter (fun c => c.2.time_slot = slot)) (fun c => x c.1)

/-- Category-link LHS: `lpSum(x[c] for c in in_cat)` with
`in_cat = [c for c in classes if classes[c]["category"] == cat]`. -/
def catCount (p : ProblemSpec) (cat : String) (x : String → Bool) : Int :=
  bitSum (p.classes.filter (fun c => c.2.category = cat)) (fun c => x c.1)

/-- `len(in_cat)`: number of catalog classes of a category. -/
def catSize (p : ProblemSpec) (cat : String) : Int :=
  (p.classes.filter (fun c => c.2.category = cat)).length

/-- Exclusion constraint LHS:
`lpSum(1 - x[c] for c in exclude_set) + lpSum(x[c] for c in classes if c not in exclude_set)`. -/
def exclusionSum (p : ProblemSpec) (exclude_set : List String) (x : String → Bool) : Int :=
  missSum exclude_set x +
    bitSum (p.classes.filter (fun c => !(exclude_set.contains c.1))) (fun c => x c.1)

/-- All constraints of the built model instance, as a decidable check on a
binary assignment (`x` on class names, `y` on categories). The final branch
mirrors `if exclude_set:` — Python's truthiness skips the exclusion constraint
both for `None` and for an empty set. -/
def feasibleB (p : ProblemSpec) (x y : String → Bool) : Bool :=
  decide (priceSum p x ≤ p.max_budget) &&
  decide (countSum p x ≤ p.max_classes) &&
  decide (durationSum p x ≤ p.max_duration) &&
  TIME_SLOTS.all (fun slot => decide (slotCount p slot x ≤ 1)) &&
  (get_categories p.classes).all (fun cat =>
    decide (b2i (y cat) ≤ catCount p cat x) &&
    decide (catCount p cat x ≤ catSize p cat * b2i (y cat))) &&
  (match p.exclude_set with
   | none => true
   | some excl => if excl.isEmpty then true else decide (1 ≤ exclusionSum p excl x))

/-- Feasibility of a binary assignment for a built model instance. -/
def Feasible (p : ProblemSpec) (x y : String → Bool) : Prop :=
  feasibleB p x y = true

instance (p : ProblemSpec) (x y : String → Bool) : Decidable (Feasible p x y) :=
  inferInstanceAs (Decidable (feasibleB p x y = true))

/-- `classes[c]` lookup used by `get_solution`; the `none` branch is Python's
`KeyError` and is unreachable there (`recommended` only holds keys of
`classes`). -/
def lookup_info (classes : Catalog) (c : String) : ClassInfo :=
  ((classes.find? (fun p => p.1 = c)).map (fun p => p.2)).getD ⟨0, 0, TimeSlot.morning, "", 0⟩

/-- `get_solution(classes, x, user_preferences)`: the tuple
`(recommended, total_price, total_duration, total_score, categories_used)`
decoded from a solved assignment. -/
def get_solution (classes : Catalog) (x : String → Bool) (user_preferences : Option PrefMap) :
    List String × Int × Int × Int × List String :=
  let recommended := (classes.map (fun p => p.1)).filter x
  (recommended,
   (recommended.map (fun c => (lookup_info classes c).price)).sum,
   (recommended.map (fun c => (lookup_info classes c).duration)).sum,
   (recommended.map (fun c => get_score c user_preferences)).sum,
   (recommended.map (fun c => (lookup_info classes c).category)).dedup)

/-- Result of one `problem.solve()` call: a PuLP status code (1 = Optimal) and
the values the solver assigned to the binary variables `x` (per class name)
and `y` (per category). -/
structure SolveResult where
  status : Int
  x : String → Bool
  y : String → Bool

/-- The round-1 model instance built inside `recommend_for_user`
(`exclude_set=None`; the catalog is always the module-level `CLASSES`). -/
def round1Spec (prefs : Option PrefMap) (mb mc md : Int) : ProblemSpec :=
  ⟨CLASSES, prefs, mb, mc, md, DIVERSITY_BONUS, none⟩

/-- The round-2 model instance built inside `recommend_for_user`:
`exclude_set = set(rec1)` where `rec1` is round 1's recommended list. -/
def round2Spec (solve : ProblemSpec → SolveResult) (prefs : Option PrefMap) (mb mc md : Int) :
    ProblemSpec :=
  ⟨CLASSES, prefs, mb, mc, md, DIVERSITY_BONUS,
   some (get_solution CLASSES (solve (round1Spec prefs mb mc md)).x prefs).1⟩

/-- `recommend_for_user(user_id_or_preferences, max_budget, max_classes,
max_duration)` parametrized by the solver oracle: returns
`(rec1, score1, rec2, score2)`, with `None` components on a non-Optimal
status exactly as in the source (`return None, None, None, None` when round 1
fails, `return rec1, score1, None, None` when round 2 fails). -/
def recommend_for_user (solve : ProblemSpec → SolveResult) (user : UserArg) (mb mc md : Int) :
    Option (List String) × Option Int × Option (List String) × Option Int :=
  let prefs := get_preferences_for_user user
  let r1 := solve (round1Spec prefs mb mc md)
  if r1.status ≠ 1 then (none, none, none, none)
  else
    let sol1 := get_solution CLASSES r1.x prefs
    let r2 := solve (round2Spec solve prefs mb mc md)
    if r2.status ≠ 1 then (some sol1.1, some sol1.2.2.2.1, none, none)
    else
      let sol2 := get_solution CLASSES r2.x prefs
      (some sol1.1, some sol1.2.2.2.1, some sol2.1, some sol2.2.2.2.1)

/-- Soundness of the solver oracle: a round it reports Optimal (status 1)
returns an assignment satisfying every constraint of the model instance. -/
def SolverSound (solve : ProblemSpec → SolveResult) : Prop :=
  ∀ p : ProblemSpec, (solve p).status = 1 → Feasible p (solve p).x (solve p).y

/-- Optimality of the solver oracle: a round it reports Optimal returns an
assignment maximizing the objective over all feasible assignments. -/
def SolverOptimal (solve : ProblemSpec → SolveResult) : Prop :=
  ∀ (p : ProblemSpec) (x y : String → Bool), (solve p).status = 1 →
    Feasible p x y → objective p x y ≤ objective p (solve p).x (solve p).y

/-- Membership assignment: the binary assignment selecting exactly a given
list (used to enumerate assignments over `sublists`). -/
def memb (S : List String) : String → Bool := fun c => decide (c ∈ S)

/-- The class names of the built-in catalog, in dict order. -/
def class_names : List String := CLASSES.map (fun p => p.1)

/-- The round-1 model instance of the spec's concrete scenario: default
scores, budget 50, at most 3 classes, duration 150, bonus 2, no exclusion. -/
def spec1 : ProblemSpec := round1Spec none 50 3 150

/-- The round-2 model instance of the concrete scenario once round 1 has
produced `{HIIT, Pilates, Zumba}`. -/
def spec2 : ProblemSpec := ⟨CLASSES, none, 50, 3, 150, 2, some ["HIIT", "Pilates", "Zumba"]⟩

/-- Round-1 instance with `max_classes = 0` (degenerate scenario). -/
def specZ1 : ProblemSpec := round1Spec none 50 0 150

/-- Round-2 instance with `max_classes = 0`: the excluded set is empty. -/
def specZ2 : ProblemSpec := ⟨CLASSES, none, 50, 0, 150, 2, some []⟩

/-- Round-1 instance whose override dict references the unknown id "Rowing". -/
def specR : ProblemSpec := ⟨CLASSES, some [("Rowing", 10)], 50, 3, 150, 2, none⟩

/-- Assignment selecting `{HIIT, Pilates, Zumba}`. -/
def xHPZ : String → Bool := memb ["HIIT", "Pilates", "Zumba"]

/-- Category indicators matching `xHPZ`. -/
def yHPZ : String → Bool := memb ["mind_body", "cardio"]

/-- Assignment selecting `{Yoga, Spinning, Zumba}`. -/
def xYSZ : String → Bool := memb ["Yoga", "Spinning", "Zumba"]

/-- Category indicators matching `xYSZ`. -/
def yYSZ : String → Bool := memb ["mind_body", "cardio"]

/-- Assignment selecting `{HIIT, Boxing}`. -/
def xHB : String → Bool := memb ["HIIT", "Boxing"]

/-- Category indicators matching `xHB`. -/
def yHB : String → Bool := memb ["cardio", "strength"]

/-- An oracle that never reports Optimal (e.g. always Infeasible). -/
def solveFail : ProblemSpec → SolveResult :=
  fun _ => ⟨0, fun _ => false, fun _ => false⟩

/-- An oracle answering only the concrete round-1 instance, with the optimal
selection `{HIIT, Pilates, Zumba}`. -/
def solveO1 : ProblemSpec → SolveResult :=
  fun p => if p = spec1 then ⟨1, xHPZ, yHPZ⟩ else ⟨0, fun _ => false, fun _ => false⟩

/-- An optimal oracle resolving the round-2 tie in favour of `{HIIT, Boxing}`
(both `{Yoga, Spinning, Zumba}` and `{HIIT, Boxing}` attain objective 23 once
`{HIIT, Pilates, Zumba}` is excluded). -/
def solveObad : ProblemSpec → SolveResult :=
  fun p =>
    if p = spec1 then ⟨1, xHPZ, yHPZ⟩
    else if p = spec2 then ⟨1, xHB, yHB⟩
    else ⟨0, fun _ => false, fun _ => false⟩

/-- An optimal oracle for the degenerate `max_classes = 0` instances, whose
only feasible assignment is all-zeros. -/
def solveZero : ProblemSpec → SolveResult :=
  fun p =>
    if p = specZ1 then ⟨1, fun _ => false, fun _ => false⟩
    else if p = specZ2 then ⟨1, fun _ => false, fun _ => false⟩
    else ⟨0, fun _ => false, fun _ => false⟩

/-- An optimal oracle for the instance whose overrides name the unknown id
"Rowing" (the scores, hence the optimum, coincide with the default ones). -/
def solveR : ProblemSpec → SolveResult :=
  fun p => if p = specR then ⟨1, xHPZ, yHPZ⟩ else ⟨0, fun _ => false, fun _ => false⟩

theorem b2i_nonneg (b : Bool) : 0 ≤ b2i b := by cases b <;> simp [b2i]

theorem one_sub_b2i (b : Bool) : 1 - b2i b = b2i (!b) := by cases b <;> simp [b2i]

theorem bitSum_cons (a : α) (t : List α) (g : α → Bool) :
    bitSum (a :: t) g = b2i (g a) + bitSum t g := by
  simp [bitSum]

theorem bitSum_eq_length (l : List α) (g : α → Bool) :
    bitSum l g = ((l.filter g).length : Int) := by
  induction l with
  | nil => simp [bitSum]
  | cons a t ih =>
    cases h : g a
    · simp [bitSum_cons, h, b2i, List.filter_cons, ih]
    · simp only [bitSum_cons, h, b2i, List.filter_cons, if_pos, ih, List.length_cons]
      push_cast
      ring

theorem bitSum_nonneg (l : List α) (g : α → Bool) : 0 ≤ bitSum l g := by
  rw [bitSum_eq_length]; positivity

theorem one_le_bitSum_iff (l : List α) (g : α → Bool) :
    1 ≤ bitSum l g ↔ ∃ a ∈ l, g a = true := by
  rw [bitSum_eq_length]
  constructor
  · intro h
    have hlen : (l.filter g) ≠ [] := by
      intro hnil
      rw [hnil] at h
      norm_num at h
    obtain ⟨a, ha⟩ := List.exists_mem_of_ne_nil _ hlen
    rw [List.mem_filter] at ha
    exact ⟨a, ha.1, ha.2⟩
  · intro ⟨a, ha, hg⟩
    have : a ∈ l.filter g := List.mem_filter.2 ⟨ha, hg⟩
    have hpos : 0 < (l.filter g).length := List.length_pos.2 (fun hnil => by simp [hnil] at this)
    exact_mod_cast hpos

theorem bitSum_le_zero_iff (l : List α) (g : α → Bool) :
    bitSum l g ≤ 0 ↔ ∀ a ∈ l, g a = false := by
  induction l with
  | nil => simp [bitSum]
  | cons a t ih =>
    rw [bitSum_cons]
    cases h : g a
    · simp only [b2i, if_neg Bool.false_ne_true, List.mem_cons]
      constructor
      · intro hle b hb
        rcases hb with rfl | hb
        · exact h
        · exact (ih.1 (by omega)) b hb
      · intro hall
        have := ih.2 (fun b hb => hall b (Or.inr hb))
        omega
    · constructor
      · intro hle
        have := bitSum_nonneg t g
        simp [b2i] at hle
        omega
      · intro hall
        rw [hall a (List.mem_cons_self a t)] at h
        cases h

theorem weightSum_cons (a : α) (t : List α) (w : α → Int) (g : α → Bool) :
    weightSum (a :: t) w g = w a * b2i (g a) + weightSum t w g := by
  simp [weightSum]

theorem weightSum_eq_sum_filter (l : List α) (w : α → Int) (g : α → Bool) :
    weightSum l w g = ((l.filter g).map w).sum := by
  induction l with
  | nil => simp [weightSum]
  | cons a t ih =>
    rw [weightSum_cons, List.filter_cons]
    cases h : g a
    · simp [b2i, ih]
    · simp [b2i, ih]

theorem bitSum_congr (l : List α) (g g2 : α → Bool) (h : ∀ a ∈ l, g a = g2 a) :
    bitSum l g = bitSum l g2 := by
  unfold bitSum
  rw [List.map_congr_left (fun a ha => by rw [h a ha])]

theorem weightSum_congr (l : List α) (w : α → Int) (g g2 : α → Bool)
    (h : ∀ a ∈ l, g a = g2 a) : weightSum l w g = weightSum l w g2 := by
  unfold weightSum
  rw [List.map_congr_left (fun a ha => by rw [h a ha])]

theorem missSum_eq_bitSum (excl : List String) (x : String → Bool) :
    missSum excl x = bitSum excl (fun c => !(x c)) := by
  unfold missSum bitSum
  rw [List.map_congr_left (fun a _ => one_sub_b2i (x a))]

theorem missSum_congr (excl : List String) (x x2 : String → Bool)
    (h : ∀ c ∈ excl, x c = x2 c) : missSum excl x = missSum excl x2 := by
  rw [missSum_eq_bitSum, missSum_eq_bitSum]
  exact bitSum_congr _ _ _ (fun c hc => by rw [h c hc])

theorem feasible_price (p : ProblemSpec) (x y : String → Bool) (hf : Feasible p x y) :
    priceSum p x ≤ p.max_budget := by
  unfold Feasible feasibleB at hf
  simp only [Bool.and_eq_true, decide_eq_true_iff] at hf
  exact hf.1.1.1.1.1

theorem feasible_count (p : ProblemSpec) (x y : String → Bool) (hf : Feasible p x y) :
    countSum p x ≤ p.max_classes := by
  unfold Feasible feasibleB at hf
  simp only [Bool.and_eq_true, decide_eq_true_iff] at hf
  exact hf.1.1.1.1.2

theorem feasible_duration (p : ProblemSpec) (x y : String → Bool) (hf : Feasible p x y) :
    durationSum p x ≤ p.max_duration := by
  unfold Feasible feasibleB at hf
  simp only [Bool.and_eq_true, decide_eq_true_iff] at hf
  exact hf.1.1.1.2

theorem feasible_slot (p : ProblemSpec) (x y : String → Bool) (hf : Feasible p x y) :
    ∀ slot ∈ TIME_SLOTS, slotCount p slot x ≤ 1 := by
  unfold Feasible feasibleB at hf
  simp only [Bool.and_eq_true, List.all_eq_true, decide_eq_true_iff] at hf
  exact hf.1.1.2

theorem feasible_link (p : ProblemSpec) (x y : String → Bool) (hf : Feasible p x y) :
    ∀ cat ∈ get_categories p.classes,
      b2i (y cat) ≤ catCount p cat x ∧ catCount p cat x ≤ catSize p cat * b2i (y cat) := by
  unfold Feasible feasibleB at hf
  simp only [Bool.and_eq_true, List.all_eq_true, decide_eq_true_iff] at hf
  exact hf.1.2

theorem feasible_excl (p : ProblemSpec) (x y : String → Bool) (excl : List String)
    (hf : Feasible p x y) (he : p.exclude_set = some excl) (hne : excl ≠ []) :
    1 ≤ exclusionSum p excl x := by
  unfold Feasible feasibleB at hf
  simp only [Bool.and_eq_true] at hf
  have h2 := hf.2
  rw [he] at h2
  cases excl with
  | nil => exact absurd rfl hne
  | cons a t =>
    simpa [List.isEmpty, decide_eq_true_iff] using h2

theorem all_congr (l : List α) (g g2 : α → Bool) (h : ∀ a ∈ l, g a = g2 a) :
    l.all g = l.all g2 := by
  rw [Bool.eq_iff_iff, List.all_eq_true, List.all_eq_true]
  constructor
  · intro hall a ha
    rw [← h a ha]
    exact hall a ha
  · intro hall a ha
    rw [h a ha]
    exact hall a ha

/-- The constraints read the assignments only at the catalog's class names
(plus the excluded names) and at the catalog's categories. -/
theorem feasibleB_congr (p : ProblemSpec) (x x2 y y2 : String → Bool)
    (hx : ∀ c ∈ p.classes.map (fun q => q.1), x c = x2 c)
    (hxe : ∀ excl, p.exclude_set = some excl → ∀ c ∈ excl, x c = x2 c)
    (hy : ∀ cat ∈ get_categories p.classes, y cat = y2 cat) :
    feasibleB p x y = feasibleB p x2 y2 := by
  have hx' : ∀ q ∈ p.classes, x q.1 = x2 q.1 :=
    fun q hq => hx q.1 (List.mem_map_of_mem _ hq)
  have e1 : priceSum p x = priceSum p x2 := weightSum_congr _ _ _ _ hx'
  have e2 : countSum p x = countSum p x2 := bitSum_congr _ _ _ hx'
  have e3 : durationSum p x = durationSum p x2 := weightSum_congr _ _ _ _ hx'
  have e4 : ∀ slot, slotCount p slot x = slotCount p slot x2 := fun slot =>
    bitSum_congr _ _ _ (fun q hq => hx' q (List.mem_of_mem_filter hq))
  have e5 : ∀ cat, catCount p cat x = catCount p cat x2 := fun cat =>
    bitSum_congr _ _ _ (fun q hq => hx' q (List.mem_of_mem_filter hq))
  have e6 : ∀ excl, p.exclude_set = some excl →
      exclusionSum p excl x = exclusionSum p excl x2 := by
    intro excl he
    unfold exclusionSum
    rw [missSum_congr _ _ _ (hxe excl he),
      bitSum_congr _ _ _ (fun q hq => hx' q (List.mem_of_mem_filter hq))]
  unfold feasibleB
  rw [e1, e2, e3]
  rw [all_congr TIME_SLOTS _ _ (fun slot _ => by rw [e4 slot])]
  rw [all_congr (get_categories p.classes) _ _
    (fun cat hcat => by rw [e5 cat, hy cat hcat])]
  rcases he : p.exclude_set with _ | excl
  · rfl
  · cases excl with
    | nil => rfl
    | cons a t => simp only [List.isEmpty, e6 (a :: t) he]

/-- The objective reads the assignments only at the catalog's class names and
categories. -/
theorem objective_congr (p : ProblemSpec) (x x2 y y2 : String → Bool)
    (hx : ∀ c ∈ p.classes.map (fun q => q.1), x c = x2 c)
    (hy : ∀ cat ∈ get_categories p.classes, y cat = y2 cat) :
    objective p x y = objective p x2 y2 := by
  have hx' : ∀ q ∈ p.classes, x q.1 = x2 q.1 :=
    fun q hq => hx q.1 (List.mem_map_of_mem _ hq)
  unfold objective satisfactionSum diversitySum
  rw [weightSum_congr _ _ _ _ hx', weightSum_congr _ _ _ _ hy]

theorem memb_filter_agree (l : List String) (x : String → Bool) :
    ∀ c ∈ l, x c = memb (l.filter x) c := by
  intro c hc
  cases hx : x c
  · symm
    simp only [memb, decide_eq_false_iff_not]
    intro hmem
    rw [List.mem_filter] at hmem
    rw [hx] at hmem
    exact absurd hmem.2 (by simp)
  · symm
    simp only [memb, decide_eq_true_iff]
    exact List.mem_filter.2 ⟨hc, hx⟩

/-- Any assignment pair is equivalent, for one model instance, to the
membership assignment of the sublists it selects; this reduces quantification
over assignments to quantification over `sublists`. -/
theorem memb_transfer (p : ProblemSpec) (x y : String → Bool)
    (hex : ∀ excl, p.exclude_set = some excl → ∀ c ∈ excl, c ∈ p.classes.map (fun q => q.1)) :
    (Feasible p x y ↔
      Feasible p (memb ((p.classes.map (fun q => q.1)).filter x))
        (memb ((get_categories p.classes).filter y))) ∧
    objective p x y =
      objective p (memb ((p.classes.map (fun q => q.1)).filter x))
        (memb ((get_categories p.classes).filter y)) ∧
    ((p.classes.map (fun q => q.1)).filter x) ∈ (p.classes.map (fun q => q.1)).sublists ∧
    ((get_categories p.classes).filter y) ∈ (get_categories p.classes).sublists := by
  have hx := memb_filter_agree (p.classes.map (fun q => q.1)) x
  have hy := memb_filter_agree (get_categories p.classes) y
  have hxe : ∀ excl, p.exclude_set = some excl →
      ∀ c ∈ excl, x c = memb ((p.classes.map (fun q => q.1)).filter x) c :=
    fun excl he c hc => hx c (hex excl he c hc)
  refine ⟨?_, objective_congr p _ _ _ _ hx hy, ?_, ?_⟩
  · unfold Feasible
    rw [feasibleB_congr p _ _ _ _ hx hxe hy]
  · exact List.mem_sublists.2 (List.filter_sublist _)
  · exact List.mem_sublists.2 (List.filter_sublist _)

/-- Upper bound transfer: a bound on the objective over all membership
assignments drawn from `sublists` bounds it over all assignments. -/
theorem opt_bound (p : ProblemSpec) (B : Int)
    (hex : ∀ excl, p.exclude_set = some excl → ∀ c ∈ excl, c ∈ p.classes.map (fun q => q.1))
    (hm : ∀ S ∈ (p.classes.map (fun q => q.1)).sublists,
          ∀ T ∈ (get_categories p.classes).sublists,
            Feasible p (memb S) (memb T) → objective p (memb S) (memb T) ≤ B)
    (x y : String → Bool) (hf : Feasible p x y) : objective p x y ≤ B := by
  obtain ⟨hfe, hoe, hS, hT⟩ := memb_transfer p x y hex
  rw [hoe]
  exact hm _ hS _ hT (hfe.1 hf)

theorem lookup_info_cons_self (a : String × ClassInfo) (t : Catalog) :
    lookup_info (a :: t) a.1 = a.2 := by
  simp [lookup_info, List.find?_cons]

theorem lookup_info_cons_ne (a : String × ClassInfo) (t : Catalog) (c : String)
    (h : c ≠ a.1) : lookup_info (a :: t) c = lookup_info t c := by
  have hd : (decide (a.1 = c)) = false := decide_eq_false (fun he => h he.symm)
  simp only [lookup_info, List.find?_cons, hd]

/-- Under unique dict keys (always true of a Python dict), pairing each
selected key with its `classes[c]` lookup recovers the filtered catalog. -/
theorem filter_keys_pairs (classes : Catalog)
    (hnd : (classes.map (fun p => p.1)).Nodup) (x : String → Bool) :
    ((classes.map (fun p => p.1)).filter x).map (fun c => (c, lookup_info classes c)) =
      classes.filter (fun p => x p.1) := by
  induction classes with
  | nil => simp
  | cons a t ih =>
    rw [List.map_cons, List.nodup_cons] at hnd
    rw [List.map_cons]
    have hmemtail : ∀ c ∈ (t.map (fun p => p.1)).filter x,
        lookup_info (a :: t) c = lookup_info t c := by
      intro c hc
      exact lookup_info_cons_ne a t c
        (fun he => hnd.1 (he ▸ List.mem_of_mem_filter hc))
    cases hx : x a.1
    · rw [List.filter_cons_of_neg (by simp [hx]), List.filter_cons_of_neg (by simp [hx])]
      rw [List.map_congr_left (fun c hc => by rw [hmemtail c hc])]
      exact ih hnd.2
    · rw [List.filter_cons_of_pos (by simp [hx]), List.filter_cons_of_pos (by simp [hx])]
      rw [List.map_cons, lookup_info_cons_self]
      rw [List.map_congr_left (fun c hc => by rw [hmemtail c hc])]
      rw [ih hnd.2]

/-- The extracted totals over `recommended` (computed by key lookup, as in
`get_solution`) equal the per-pair sums over the filtered catalog. -/
theorem recommended_map_lookup (classes : Catalog)
    (hnd : (classes.map (fun p => p.1)).Nodup) (x : String → Bool) (f : ClassInfo → Int) :
    (((classes.map (fun p => p.1)).filter x).map (fun c => f (lookup_info classes c))).sum =
      ((classes.filter (fun p => x p.1)).map (fun p => f p.2)).sum := by
  have h := filter_keys_pairs classes hnd x
  calc (((classes.map (fun p => p.1)).filter x).map (fun c => f (lookup_info classes c))).sum
      = ((((classes.map (fun p => p.1)).filter x).map
          (fun c => (c, lookup_info classes c))).map (fun q => f q.2)).sum := by
        rw [List.map_map]
        rfl
    _ = ((classes.filter (fun p => x p.1)).map (fun p => f p.2)).sum := by rw [h]

theorem recommended_countP_lookup (classes : Catalog)
    (hnd : (classes.map (fun p => p.1)).Nodup) (x : String → Bool) (P : ClassInfo → Bool) :
    ((classes.map (fun p => p.1)).filter x).countP (fun c => P (lookup_info classes c)) =
      (classes.filter (fun p => x p.1)).countP (fun p => P p.2) := by
  have h := filter_keys_pairs classes hnd x
  calc ((classes.map (fun p => p.1)).filter x).countP (fun c => P (lookup_info classes c))
      = ((((classes.map (fun p => p.1)).filter x).map
          (fun c => (c, lookup_info classes c)))).countP (fun q => P q.2) := by
        rw [List.countP_map]
        rfl
    _ = (classes.filter (fun p => x p.1)).countP (fun p => P p.2) := by rw [h]

/-- Dropping the exclusion constraint preserves feasibility: round 2's
feasible region is contained in round 1's. -/
theorem feasible_drop_exclude (classes : Catalog) (prefs : Option PrefMap)
    (mb mc md bonus : Int) (excl : List String) (x y : String → Bool)
    (hf : Feasible ⟨classes, prefs, mb, mc, md, bonus, some excl⟩ x y) :
    Feasible ⟨classes, prefs, mb, mc, md, bonus, none⟩ x y := by
  unfold Feasible feasibleB at hf ⊢
  simp only [Bool.and_eq_true] at hf ⊢
  exact ⟨hf.1, trivial⟩

/-- With `max_classes ≤ 0` every feasible assignment selects nothing. -/
theorem feasible_count_zero (p : ProblemSpec) (x y : String → Bool)
    (hf : Feasible p x y) (hmc : p.max_classes ≤ 0) :
    (p.classes.map (fun q => q.1)).filter x = [] := by
  have h := feasible_count p x y hf
  have h0 : countSum p x ≤ 0 := le_trans h hmc
  have hall := (bitSum_le_zero_iff _ _).1 h0
  apply List.filter_eq_nil_iff.2
  intro c hc
  rw [List.mem_map] at hc
  obtain ⟨q, hq, rfl⟩ := hc
  simp [hall q hq]

/-- The two category-linking constraints force each indicator to be exactly
"some class of this category is selected". -/
theorem feasible_cat_link (p : ProblemSpec) (x y : String → Bool) (hf : Feasible p x y) :
    ∀ cat ∈ get_categories p.classes,
      (y cat = true ↔ ∃ q ∈ p.classes, q.2.category = cat ∧ x q.1 = true) := by
  intro cat hcat
  obtain ⟨hlo, hhi⟩ := feasible_link p x y hf cat hcat
  constructor
  · intro hy
    rw [hy] at hlo
    have h1 : 1 ≤ catCount p cat x := by simpa [b2i] using hlo
    obtain ⟨q, hq, hxq⟩ := (one_le_bitSum_iff _ _).1 h1
    rw [List.mem_filter] at hq
    exact ⟨q, hq.1, by simpa using hq.2, hxq⟩
  · rintro ⟨q, hq, hcatq, hxq⟩
    by_contra hyf
    have hy0 : y cat = false := by
      cases hyc : y cat
      · rfl
      · exact absurd hyc hyf
    rw [hy0] at hhi
    have h0 : catCount p cat x ≤ 0 := by simpa [b2i] using hhi
    have hall := (bitSum_le_zero_iff _ _).1 h0
    have := hall q (List.mem_filter.2 ⟨hq, by simp [hcatq]⟩)
    rw [hxq] at this
    cases this

/-- A feasible round-2 assignment cannot reproduce the excluded nonempty set:
the exclusion constraint forces either a dropped or an added class. -/
theorem exclusion_differs (p : ProblemSpec) (excl : List String) (x y : String → Bool)
    (he : p.exclude_set = some excl) (hne : excl ≠ []) (hf : Feasible p x y) :
    ¬ (∀ c : String, c ∈ (p.classes.map (fun q => q.1)).filter x ↔ c ∈ excl) := by
  intro hiff
  have hcon := feasible_excl p x y excl hf he hne
  have hmiss : missSum excl x ≤ 0 := by
    rw [missSum_eq_bitSum]
    apply (bitSum_le_zero_iff _ _).2
    intro c hc
    have hcx : x c = true :=
      (List.mem_filter.1 ((hiff c).2 hc)).2
    simp [hcx]
  have hadd : bitSum (p.classes.filter (fun c => !(excl.contains c.1)))
      (fun c => x c.1) ≤ 0 := by
    apply (bitSum_le_zero_iff _ _).2
    intro q hq
    rw [List.mem_filter] at hq
    have hnotin : q.1 ∉ excl := by
      intro hmem
      have : excl.contains q.1 = true := List.elem_iff.2 hmem
      rw [this] at hq
      simpa using hq.2
    cases hxq : x q.1
    · rfl
    · exact absurd ((hiff q.1).1
        (List.mem_filter.2 ⟨List.mem_map_of_mem _ hq.1, hxq⟩)) hnotin
  unfold exclusionSum at hcon
  omega

theorem hex_of_none (p : ProblemSpec) (hL : p.exclude_set = none) :
    ∀ excl, p.exclude_set = some excl → ∀ c ∈ excl, c ∈ p.classes.map (fun q => q.1) := by
  intro excl he
  rw [hL] at he
  cases he

theorem hex_of_concrete (p : ProblemSpec) (L : List String) (hL : p.exclude_set = some L)
    (hsub : ∀ c ∈ L, c ∈ p.classes.map (fun q => q.1)) :
    ∀ excl, p.exclude_set = some excl → ∀ c ∈ excl, c ∈ p.classes.map (fun q => q.1) := by
  intro excl he
  rw [hL] at he
  injection he with h
  subst h
  exact hsub

/-- Exhaustive check over all 64 x 8 membership assignments of the concrete
round-1 instance: the objective never exceeds 25, and only the selection
`{HIIT, Pilates, Zumba}` attains 25. -/
theorem master_spec1 : ∀ S ∈ class_names.sublists, ∀ T ∈ (get_categories CLASSES).sublists,
    Feasible spec1 (memb S) (memb T) →
      (objective spec1 (memb S) (memb T) ≤ 25 ∧
       (objective spec1 (memb S) (memb T) = 25 → S = ["HIIT", "Pilates", "Zumba"])) := by
  decide

/-- Exhaustive check over the concrete round-2 instance (with
`{HIIT, Pilates, Zumba}` excluded): the objective never exceeds 23, and
exactly `{Yoga, Spinning, Zumba}` and `{HIIT, Boxing}` attain 23. -/
theorem master_spec2 : ∀ S ∈ class_names.sublists, ∀ T ∈ (get_categories CLASSES).sublists,
    Feasible spec2 (memb S) (memb T) →
      (objective spec2 (memb S) (memb T) ≤ 23 ∧
       (objective spec2 (memb S) (memb T) = 23 →
         (S = ["Yoga", "Spinning", "Zumba"] ∨ S = ["HIIT", "Boxing"]))) := by
  decide

/-- With `max_classes = 0`, every feasible membership assignment has
objective at most 0. -/
theorem master_specZ1 : ∀ S ∈ class_names.sublists, ∀ T ∈ (get_categories CLASSES).sublists,
    Feasible specZ1 (memb S) (memb T) → objective specZ1 (memb S) (memb T) ≤ 0 := by
  decide

/-- Same bound for the round-2 instance with the empty set "excluded". -/
theorem master_specZ2 : ∀ S ∈ class_names.sublists, ∀ T ∈ (get_categories CLASSES).sublists,
    Feasible specZ2 (memb S) (memb T) → objective specZ2 (memb S) (memb T) ≤ 0 := by
  decide

/-- The instance whose overrides mention only the unknown id "Rowing" has the
same optimum 25 as the default-score instance. -/
theorem master_specR : ∀ S ∈ class_names.sublists, ∀ T ∈ (get_categories CLASSES).sublists,
    Feasible specR (memb S) (memb T) → objective specR (memb S) (memb T) ≤ 25 := by
  decide

theorem solveFail_sound : SolverSound solveFail := by
  intro p h
  simp [solveFail] at h

theorem solveO1_sound : SolverSound solveO1 := by
  intro p h
  unfold solveO1 at h ⊢
  by_cases hp : p = spec1
  · subst hp
    rw [if_pos rfl]
    decide
  · rw [if_neg hp] at h
    simp at h

theorem solveO1_optimal : SolverOptimal solveO1 := by
  intro p x y h hf
  unfold solveO1 at h ⊢
  by_cases hp : p = spec1
  · subst hp
    rw [if_pos rfl]
    have hb := opt_bound spec1 25 (hex_of_none spec1 rfl)
      (fun S hS T hT hfm => (master_spec1 S hS T hT hfm).1) x y hf
    calc objective spec1 x y ≤ 25 := hb
      _ = _ := by decide
  · rw [if_neg hp] at h
    simp at h

theorem solveObad_sound : SolverSound solveObad := by
  intro p h
  unfold solveObad at h ⊢
  by_cases hp : p = spec1
  · subst hp
    rw [if_pos rfl]
    decide
  · rw [if_neg hp] at h ⊢
    by_cases hq : p = spec2
    · subst hq
      rw [if_pos rfl]
      decide
    · rw [if_neg hq] at h
      simp at h

theorem solveObad_optimal : SolverOptimal solveObad := by
  intro p x y h hf
  unfold solveObad at h ⊢
  by_cases hp : p = spec1
  · subst hp
    rw [if_pos rfl]
    have hb := opt_bound spec1 25 (hex_of_none spec1 rfl)
      (fun S hS T hT hfm => (master_spec1 S hS T hT hfm).1) x y hf
    calc objective spec1 x y ≤ 25 := hb
      _ = _ := by decide
  · rw [if_neg hp] at h ⊢
    by_cases hq : p = spec2
    · subst hq
      rw [if_pos rfl]
      have hb := opt_bound spec2 23
        (hex_of_concrete spec2 ["HIIT", "Pilates", "Zumba"] rfl (by decide))
        (fun S hS T hT hfm => (master_spec2 S hS T hT hfm).1) x y hf
      calc objective spec2 x y ≤ 23 := hb
        _ = _ := by decide
    · rw [if_neg hq] at h
      simp at h

theorem solveZero_sound : SolverSound solveZero := by
  intro p h
  unfold solveZero at h ⊢
  by_cases hp : p = specZ1
  · subst hp
    rw [if_pos rfl]
    decide
  · rw [if_neg hp] at h ⊢
    by_cases hq : p = specZ2
    · subst hq
      rw [if_pos rfl]
      decide
    · rw [if_neg hq] at h
      simp at h

theorem solveZero_optimal : SolverOptimal solveZero := by
  intro p x y h hf
  unfold solveZero at h ⊢
  by_cases hp : p = specZ1
  · subst hp
    rw [if_pos rfl]
    have hb := opt_bound specZ1 0 (hex_of_none specZ1 rfl) master_specZ1 x y hf
    calc objective specZ1 x y ≤ 0 := hb
      _ = _ := by decide
  · rw [if_neg hp] at h ⊢
    by_cases hq : p = specZ2
    · subst hq
      rw [if_pos rfl]
      have hb := opt_bound specZ2 0
        (hex_of_concrete specZ2 [] rfl (by decide)) master_specZ2 x y hf
      calc objective specZ2 x y ≤ 0 := hb
        _ = _ := by decide
    · rw [if_neg hq] at h
      simp at h

theorem solveR_sound : SolverSound solveR := by
  intro p h
  unfold solveR at h ⊢
  by_cases hp : p = specR
  · subst hp
    rw [if_pos rfl]
    decide
  · rw [if_neg hp] at h
    simp at h

theorem solveR_optimal : SolverOptimal solveR := by
  intro p x y h hf
  unfold solveR at h ⊢
  by_cases hp : p = specR
  · subst hp
    rw [if_pos rfl]
    have hb := opt_bound specR 25 (hex_of_none specR rfl) master_specR x y hf
    calc objective specR x y ≤ 25 := hb
      _ = _ := by decide
  · rw [if_neg hp] at h
    simp at h

/-- Under a sound and optimal oracle reporting Optimal on the concrete
round-1 instance, the returned objective is 25 and the selected classes are
exactly `{HIIT, Pilates, Zumba}`. -/
theorem rank1_identified (solve : ProblemSpec → SolveResult)
    (hs : SolverSound solve) (ho : SolverOptimal solve)
    (h1 : (solve spec1).status = 1) :
    objective spec1 (solve spec1).x (solve spec1).y = 25 ∧
    class_names.filter (solve spec1).x = ["HIIT", "Pilates", "Zumba"] := by
  have hf := hs spec1 h1
  obtain ⟨hfe, hoe, hS, hT⟩ :=
    memb_transfer spec1 (solve spec1).x (solve spec1).y (hex_of_none spec1 rfl)
  have hub : objective spec1 (solve spec1).x (solve spec1).y ≤ 25 :=
    opt_bound spec1 25 (hex_of_none spec1 rfl)
      (fun S hS T hT hfm => (master_spec1 S hS T hT hfm).1) _ _ hf
  have hlb : (25:Int) ≤ objective spec1 (solve spec1).x (solve spec1).y := by
    have hfz : Feasible spec1 xHPZ yHPZ := by decide
    have h := ho spec1 xHPZ yHPZ h1 hfz
    calc (25:Int) = objective spec1 xHPZ yHPZ := by decide
      _ ≤ _ := h
  have heq : objective spec1 (solve spec1).x (solve spec1).y = 25 :=
    le_antisymm hub hlb
  refine ⟨heq, ?_⟩
  have hm := (master_spec1 _ hS _ hT (hfe.1 hf)).2
  exact hm (by rw [← hoe]; exact heq)

/-- With round 1 identified, the model instance built for round 2 is exactly
`spec2`. -/
theorem round2Spec_eq_spec2 (solve : ProblemSpec → SolveResult)
    (hs : SolverSound solve) (ho : SolverOptimal solve)
    (h1 : (solve spec1).status = 1) :
    round2Spec solve none 50 3 150 = spec2 := by
  have h : (get_solution CLASSES (solve (round1Spec none 50 3 150)).x none).1 =
      ["HIIT", "Pilates", "Zumba"] := (rank1_identified solve hs ho h1).2
  unfold round2Spec spec2
  rw [h]
  rfl

/-- Under a sound and optimal oracle reporting Optimal on the concrete
round-2 instance, the returned objective is 23 and the selected classes are
`{Yoga, Spinning, Zumba}` or `{HIIT, Boxing}` — a tie the code does not
break. -/
theorem rank2_identified (solve : ProblemSpec → SolveResult)
    (hs : SolverSound solve) (ho : SolverOptimal solve)
    (h2 : (solve spec2).status = 1) :
    objective spec2 (solve spec2).x (solve spec2).y = 23 ∧
    (class_names.filter (solve spec2).x = ["Yoga", "Spinning", "Zumba"] ∨
     class_names.filter (solve spec2).x = ["HIIT", "Boxing"]) := by
  have hf := hs spec2 h2
  have hexc := hex_of_concrete spec2 ["HIIT", "Pilates", "Zumba"] rfl (by decide)
  obtain ⟨hfe, hoe, hS, hT⟩ :=
    memb_transfer spec2 (solve spec2).x (solve spec2).y hexc
  have hub : objective spec2 (solve spec2).x (solve spec2).y ≤ 23 :=
    opt_bound spec2 23 hexc
      (fun S hS T hT hfm => (master_spec2 S hS T hT hfm).1) _ _ hf
  have hlb : (23:Int) ≤ objective spec2 (solve spec2).x (solve spec2).y := by
    have hfz : Feasible spec2 xYSZ yYSZ := by decide
    have h := ho spec2 xYSZ yYSZ h2 hfz
    calc (23:Int) = objective spec2 xYSZ yYSZ := by decide
      _ ≤ _ := h
  have heq : objective spec2 (solve spec2).x (solve spec2).y = 23 :=
    le_antisymm hub hlb
  refine ⟨heq, ?_⟩
  have hm := (master_spec2 _ hS _ hT (hfe.1 hf)).2
  exact hm (by rw [← hoe]; exact heq)

/-- Override entries whose keys name no catalog class never influence a
lookup for a catalog class name. -/
theorem find?_filter_catalog (m : PrefMap) (c : String)
    (hc : c ∈ CLASSES.map (fun p => p.1)) :
    m.find? (fun p => p.1 = c) =
      (m.filter (fun e => decide (e.1 ∈ CLASSES.map (fun p => p.1)))).find?
        (fun p => p.1 = c) := by
  induction m with
  | nil => simp
  | cons e t ih =>
    by_cases he : e.1 = c
    · have hmem : (decide (e.1 ∈ CLASSES.map (fun p => p.1))) = true := by
        rw [he]
        exact decide_eq_true hc
      simp only [List.filter_cons, List.find?_cons]
      rw [hmem]
      simp [he]
    · have hd : (decide (e.1 = c)) = false := decide_eq_false he
      by_cases hk : e.1 ∈ CLASSES.map (fun p => p.1)
      · simp only [List.filter_cons, List.find?_cons]
        rw [decide_eq_true hk]
        simp only [if_true, List.find?_cons, hd]
        exact ih
      · simp only [List.filter_cons, List.find?_cons]
        rw [decide_eq_false hk]
        simp only [Bool.false_eq_true, if_false, hd]
        exact ih

/-- Claim C7: if the round-1 solve status is not Optimal, `recommend_for_user`
returns `(None, None, None, None)` (the empty plan list with the
no-feasible-plan signal, no error raised); if round 1 is Optimal but round 2
is not, it returns exactly `(rec1, score1, None, None)` — the plans of the
earlier rounds only. The embedding is a total function: no exception path
exists. -/
theorem C7_early_termination (solve : ProblemSpec → SolveResult) (user : UserArg)
    (mb mc md : Int) :
    ((solve (round1Spec (get_preferences_for_user user) mb mc md)).status ≠ 1 →
      recommend_for_user solve user mb mc md = (none, none, none, none)) ∧
    ((solve (round1Spec (get_preferences_for_user user) mb mc md)).status = 1 →
     (solve (round2Spec solve (get_preferences_for_user user) mb mc md)).status ≠ 1 →
      recommend_for_user solve user mb mc md =
        (some (get_solution CLASSES
            (solve (round1Spec (get_preferences_for_user user) mb mc md)).x
            (get_preferences_for_user user)).1,
         some (get_solution CLASSES
            (solve (round1Spec (get_preferences_for_user user) mb mc md)).x
            (get_preferences_for_user user)).2.2.2.1,
         none, none)) := by
  constructor
  · intro h
    simp only [recommend_for_user]
    rw [if_pos h]
  · intro h1 h2
    simp only [recommend_for_user]
    rw [if_neg (fun hn => hn h1), if_pos h2]

/-- Witness for C7 at concrete oracles: one that fails in round 1 and one
that succeeds in round 1 but fails in round 2. -/
theorem C7_early_termination_witness :
    recommend_for_user solveFail UserArg.byNone 50 3 150 = (none, none, none, none) ∧
    recommend_for_user solveO1 UserArg.byNone 50 3 150 =
      (some ["HIIT", "Pilates", "Zumba"], some 21, none, none) := by
  constructor
  · exact (C7_early_termination solveFail UserArg.byNone 50 3 150).1 (by decide)
  · rw [(C7_early_termination solveO1 UserArg.byNone 50 3 150).2 (by decide) (by decide)]
    decide

/-- Claim C10: a profile name that is not a key of `USER_PROFILES` resolves
to `None` (no overrides), so the whole recommendation coincides with the
default-scores recommendation; no error is raised (total function). -/
theorem C10_unknown_profile_default (solve : ProblemSpec → SolveResult) (u : String)
    (mb mc md : Int) (hu : ∀ q ∈ USER_PROFILES, q.1 ≠ u) :
    recommend_for_user solve (UserArg.byName u) mb mc md =
      recommend_for_user solve UserArg.byNone mb mc md := by
  have hfind : USER_PROFILES.find? (fun p => p.1 = u) = none :=
    List.find?_eq_none.2 (fun q hq => by simp [hu q hq])
  have hp : get_preferences_for_user (UserArg.byName u) = none := by
    simp only [get_preferences_for_user, hfind]
    rfl
  unfold recommend_for_user
  rw [hp]
  rfl

/-- Witness for C10 at the unknown profile name "stranger". -/
theorem C10_unknown_profile_default_witness :
    (∀ q ∈ USER_PROFILES, q.1 ≠ "stranger") ∧
    recommend_for_user solveO1 (UserArg.byName "stranger") 50 3 150 =
      recommend_for_user solveO1 UserArg.byNone 50 3 150 :=
  ⟨by decide, C10_unknown_profile_default solveO1 "stranger" 50 3 150 (by decide)⟩

/-- Claim C5: in every built model instance, for every category present in
the catalog, a feasible assignment's category indicator is 1 exactly when at
least one class of that category is selected. -/
theorem C5_category_indicator_linking (classes : Catalog) (prefs : Option PrefMap)
    (mb mc md bonus : Int) (excl : Option (List String)) (x y : String → Bool)
    (hf : Feasible ⟨classes, prefs, mb, mc, md, bonus, excl⟩ x y) :
    ∀ cat ∈ get_categories classes,
      (y cat = true ↔ ∃ q ∈ classes, q.2.category = cat ∧ x q.1 = true) :=
  feasible_cat_link _ x y hf

/-- Witness for C5 at the concrete catalog and the `{HIIT, Pilates, Zumba}`
assignment. -/
theorem C5_category_indicator_linking_witness :
    Feasible ⟨CLASSES, none, 50, 3, 150, 2, none⟩ xHPZ yHPZ ∧
    ∀ cat ∈ get_categories CLASSES,
      (yHPZ cat = true ↔ ∃ q ∈ CLASSES, q.2.category = cat ∧ xHPZ q.1 = true) :=
  ⟨by decide,
   C5_category_indicator_linking CLASSES none 50 3 150 2 none xHPZ yHPZ (by decide)⟩

/-- Claim C4: for every catalog (with the unique keys of a Python dict) and
every assignment feasible for a built model instance, the extracted plan
respects the budget, the item count, the total duration, and occupies each
time slot at most once (`TimeSlot` enumerates every timeslot value a catalog
can hold, so this covers all slots occurring in the catalog). -/
theorem C4_constraint_satisfaction (classes : Catalog) (prefs : Option PrefMap)
    (mb mc md bonus : Int) (excl : Option (List String)) (x y : String → Bool)
    (hnd : (classes.map (fun p => p.1)).Nodup)
    (hf : Feasible ⟨classes, prefs, mb, mc, md, bonus, excl⟩ x y) :
    (get_solution classes x prefs).2.1 ≤ mb ∧
    ((get_solution classes x prefs).1.length : Int) ≤ mc ∧
    (get_solution classes x prefs).2.2.1 ≤ md ∧
    ∀ slot : TimeSlot,
      (((get_solution classes x prefs).1.filter
        (fun c => (lookup_info classes c).time_slot = slot)).length : Int) ≤ 1 := by
  have hlen : ((classes.map (fun p => p.1)).filter x).length =
      (classes.filter (fun p => x p.1)).length := by
    conv_rhs => rw [← filter_keys_pairs classes hnd x]
    rw [List.length_map]
  refine ⟨?_, ?_, ?_, ?_⟩
  · have hc := feasible_price _ x y hf
    have e : (get_solution classes x prefs).2.1 =
        priceSum ⟨classes, prefs, mb, mc, md, bonus, excl⟩ x := by
      show (((classes.map (fun p => p.1)).filter x).map
        (fun c => (lookup_info classes c).price)).sum = _
      rw [recommended_map_lookup classes hnd x (fun i => i.price)]
      rw [show priceSum ⟨classes, prefs, mb, mc, md, bonus, excl⟩ x =
        weightSum classes (fun c => c.2.price) (fun c => x c.1) from rfl]
      rw [weightSum_eq_sum_filter]
    rw [e]
    exact hc
  · have hc := feasible_count _ x y hf
    have e : countSum ⟨classes, prefs, mb, mc, md, bonus, excl⟩ x =
        (((classes.map (fun p => p.1)).filter x).length : Int) := by
      rw [show countSum ⟨classes, prefs, mb, mc, md, bonus, excl⟩ x =
        bitSum classes (fun c => x c.1) from rfl]
      rw [bitSum_eq_length, hlen]
    rw [show ((get_solution classes x prefs).1.length : Int) =
      (((classes.map (fun p => p.1)).filter x).length : Int) from rfl]
    rw [← e]
    exact hc
  · have hc := feasible_duration _ x y hf
    have e : (get_solution classes x prefs).2.2.1 =
        durationSum ⟨classes, prefs, mb, mc, md, bonus, excl⟩ x := by
      show (((classes.map (fun p => p.1)).filter x).map
        (fun c => (lookup_info classes c).duration)).sum = _
      rw [recommended_map_lookup classes hnd x (fun i => i.duration)]
      rw [show durationSum ⟨classes, prefs, mb, mc, md, bonus, excl⟩ x =
        weightSum classes (fun c => c.2.duration) (fun c => x c.1) from rfl]
      rw [weightSum_eq_sum_filter]
    rw [e]
    exact hc
  · intro slot
    have hmem : slot ∈ TIME_SLOTS := by cases slot <;> decide
    have hsc := feasible_slot _ x y hf slot hmem
    have e1 : slotCount ⟨classes, prefs, mb, mc, md, bonus, excl⟩ slot x =
        (((classes.filter (fun c => decide (c.2.time_slot = slot))).filter
          (fun c => x c.1)).length : Int) := by
      rw [show slotCount ⟨classes, prefs, mb, mc, md, bonus, excl⟩ slot x =
        bitSum (classes.filter (fun c => decide (c.2.time_slot = slot)))
          (fun c => x c.1) from rfl]
      rw [bitSum_eq_length]
    have e2 : ((classes.filter (fun c => decide (c.2.time_slot = slot))).filter
        (fun c => x c.1)).length =
        ((classes.filter (fun c => x c.1)).filter
          (fun c => decide (c.2.time_slot = slot))).length := by
      rw [List.filter_filter, List.filter_filter]
      rw [List.filter_congr (fun (a : String × ClassInfo) _ =>
        Bool.and_comm (x a.1) (decide (a.2.time_slot = slot)))]
    have e3 : ((classes.filter (fun c => x c.1)).filter
        (fun c => decide (c.2.time_slot = slot))).length =
        (((classes.map (fun p => p.1)).filter x).filter
          (fun c => decide ((lookup_info classes c).time_slot = slot))).length := by
      rw [← List.countP_eq_length_filter, ← List.countP_eq_length_filter]
      exact (recommended_countP_lookup classes hnd x
        (fun i => decide (i.time_slot = slot))).symm
    have : (((classes.map (fun p => p.1)).filter x).filter
        (fun c => decide ((lookup_info classes c).time_slot = slot))).length ≤ 1 := by
      have h1 := hsc
      rw [e1] at h1
      rw [e2, e3] at h1
      exact_mod_cast h1
    exact_mod_cast this

/-- Witness for C4 at the concrete catalog and the `{HIIT, Pilates, Zumba}`
assignment. -/
theorem C4_constraint_satisfaction_witness :
    (CLASSES.map (fun p => p.1)).Nodup ∧
    Feasible ⟨CLASSES, none, 50, 3, 150, 2, none⟩ xHPZ yHPZ ∧
    ((get_solution CLASSES xHPZ none).2.1 ≤ 50 ∧
     ((get_solution CLASSES xHPZ none).1.length : Int) ≤ 3 ∧
     (get_solution CLASSES xHPZ none).2.2.1 ≤ 150 ∧
     ∀ slot : TimeSlot,
       (((get_solution CLASSES xHPZ none).1.filter
         (fun c => (lookup_info CLASSES c).time_slot = slot)).length : Int) ≤ 1) :=
  ⟨by decide, by decide,
   C4_constraint_satisfaction CLASSES none 50 3 150 2 none xHPZ yHPZ
     (by decide) (by decide)⟩

/-- Claim C8: with `max_classes = 0` and a sound oracle, every plan slot of
the returned tuple is either the no-plan signal `None` or a plan with an
empty item list — no plan with any selected class is ever returned, and no
error is raised (the embedding is total). -/
theorem C8_zero_max_classes (solve : ProblemSpec → SolveResult)
    (hs : SolverSound solve) (user : UserArg) (mb md : Int) :
    ((recommend_for_user solve user mb 0 md).1 = none ∨
     (recommend_for_user solve user mb 0 md).1 = some []) ∧
    ((recommend_for_user solve user mb 0 md).2.2.1 = none ∨
     (recommend_for_user solve user mb 0 md).2.2.1 = some []) := by
  by_cases h1 : (solve (round1Spec (get_preferences_for_user user) mb 0 md)).status ≠ 1
  · simp only [recommend_for_user]
    rw [if_pos h1]
    exact ⟨Or.inl rfl, Or.inl rfl⟩
  · rw [not_not] at h1
    have hf1 := hs _ h1
    have hrec1 : (CLASSES.map (fun q => q.1)).filter
        (solve (round1Spec (get_preferences_for_user user) mb 0 md)).x = [] :=
      feasible_count_zero _ _ _ hf1 (by exact le_refl 0)
    by_cases h2 : (solve (round2Spec solve (get_preferences_for_user user) mb 0 md)).status ≠ 1
    · simp only [recommend_for_user]
      rw [if_neg (fun hn => hn h1), if_pos h2]
      refine ⟨Or.inr ?_, Or.inl rfl⟩
      show some ((CLASSES.map (fun p => p.1)).filter _) = some []
      rw [show (CLASSES.map (fun p => p.1)) = (CLASSES.map (fun q => q.1)) from rfl, hrec1]
    · rw [not_not] at h2
      have hf2 := hs _ h2
      have hrec2 : (CLASSES.map (fun q => q.1)).filter
          (solve (round2Spec solve (get_preferences_for_user user) mb 0 md)).x = [] :=
        feasible_count_zero _ _ _ hf2 (by exact le_refl 0)
      simp only [recommend_for_user]
      rw [if_neg (fun hn => hn h1), if_neg (fun hn => hn h2)]
      constructor
      · refine Or.inr ?_
        show some ((CLASSES.map (fun p => p.1)).filter _) = some []
        rw [show (CLASSES.map (fun p => p.1)) = (CLASSES.map (fun q => q.1)) from rfl, hrec1]
      · refine Or.inr ?_
        show some ((CLASSES.map (fun p => p.1)).filter _) = some []
        rw [show (CLASSES.map (fun p => p.1)) = (CLASSES.map (fun q => q.1)) from rfl, hrec2]

/-- Witness for C8 at the sound all-zeros oracle for `max_classes = 0`. -/
theorem C8_zero_max_classes_witness :
    SolverSound solveZero ∧
    (((recommend_for_user solveZero UserArg.byNone 50 0 150).1 = none ∨
      (recommend_for_user solveZero UserArg.byNone 50 0 150).1 = some []) ∧
     ((recommend_for_user solveZero UserArg.byNone 50 0 150).2.2.1 = none ∨
      (recommend_for_user solveZero UserArg.byNone 50 0 150).2.2.1 = some [])) :=
  ⟨solveZero_sound, C8_zero_max_classes solveZero solveZero_sound UserArg.byNone 50 150⟩

/-- Counterexample to claim C2 as stated: with `max_classes = 0` under a
sound and optimal oracle, both rounds report Optimal and both plans have the
same (empty) item set, because `if exclude_set:` treats the empty prior
selection as absent and adds no exclusion constraint. -/
theorem C2_distinctness_counterexample :
    SolverSound solveZero ∧ SolverOptimal solveZero ∧
    recommend_for_user solveZero UserArg.byNone 50 0 150 =
      (some [], some 0, some [], some 0) :=
  ⟨solveZero_sound, solveZero_optimal, by decide⟩

/-- Claim C2 amended: whenever the rank-1 plan selects at least one item, any
rank-2 plan returned in the same call has a different item set (the exclusion
constraint is then actually added and forbids an exact repeat). Only
soundness of the oracle is needed. -/
theorem C2_distinctness_amended (solve : ProblemSpec → SolveResult)
    (hs : SolverSound solve) (user : UserArg) (mb mc md : Int) (l1 l2 : List String)
    (h1 : (recommend_for_user solve user mb mc md).1 = some l1)
    (hne : l1 ≠ [])
    (h2 : (recommend_for_user solve user mb mc md).2.2.1 = some l2) :
    ¬ (∀ c : String, c ∈ l2 ↔ c ∈ l1) := by
  by_cases hs1 : (solve (round1Spec (get_preferences_for_user user) mb mc md)).status ≠ 1
  · simp only [recommend_for_user] at h1
    rw [if_pos hs1] at h1
    cases h1
  · rw [not_not] at hs1
    by_cases hs2 : (solve (round2Spec solve (get_preferences_for_user user) mb mc md)).status ≠ 1
    · simp only [recommend_for_user] at h2
      rw [if_neg (fun hn => hn hs1), if_pos hs2] at h2
      cases h2
    · rw [not_not] at hs2
      simp only [recommend_for_user] at h1 h2
      rw [if_neg (fun hn => hn hs1), if_neg (fun hn => hn hs2)] at h1 h2
      have hl1 : (get_solution CLASSES
          (solve (round1Spec (get_preferences_for_user user) mb mc md)).x
          (get_preferences_for_user user)).1 = l1 := by
        injection h1
      have hl2 : (get_solution CLASSES
          (solve (round2Spec solve (get_preferences_for_user user) mb mc md)).x
          (get_preferences_for_user user)).1 = l2 := by
        injection h2
      have hf2 := hs _ hs2
      have hdiff := exclusion_differs
        (round2Spec solve (get_preferences_for_user user) mb mc md)
        (get_solution CLASSES
          (solve (round1Spec (get_preferences_for_user user) mb mc md)).x
          (get_preferences_for_user user)).1
        (solve (round2Spec solve (get_preferences_for_user user) mb mc md)).x
        (solve (round2Spec solve (get_preferences_for_user user) mb mc md)).y
        rfl (by rw [hl1]; exact hne) hf2
      intro hiff
      apply hdiff
      intro c
      have e2 : ((round2Spec solve (get_preferences_for_user user) mb mc md).classes.map
          (fun q => q.1)).filter
          (solve (round2Spec solve (get_preferences_for_user user) mb mc md)).x = l2 := hl2
      rw [e2, hl1]
      exact hiff c

/-- Witness for the amended C2: a sound (indeed optimal) oracle returning the
nonempty rank-1 plan `{HIIT, Pilates, Zumba}` and then `{HIIT, Boxing}`. -/
theorem C2_distinctness_amended_witness :
    ¬ (∀ c : String, c ∈ (["HIIT", "Boxing"] : List String) ↔
        c ∈ (["HIIT", "Pilates", "Zumba"] : List String)) :=
  C2_distinctness_amended solveObad solveObad_sound UserArg.byNone 50 3 150
    ["HIIT", "Pilates", "Zumba"] ["HIIT", "Boxing"]
    (by decide) (by decide) (by decide)

/-- Claim C6: under a sound and optimal oracle, the round-2 objective never
exceeds the round-1 objective, because round 2's feasible region is round 1's
region restricted by the exclusion constraint and the objective function is
unchanged. -/
theorem C6_monotonic_objective (solve : ProblemSpec → SolveResult)
    (hs : SolverSound solve) (ho : SolverOptimal solve) (user : UserArg) (mb mc md : Int)
    (h1 : (solve (round1Spec (get_preferences_for_user user) mb mc md)).status = 1)
    (h2 : (solve (round2Spec solve (get_preferences_for_user user) mb mc md)).status = 1) :
    objective (round2Spec solve (get_preferences_for_user user) mb mc md)
        (solve (round2Spec solve (get_preferences_for_user user) mb mc md)).x
        (solve (round2Spec solve (get_preferences_for_user user) mb mc md)).y ≤
      objective (round1Spec (get_preferences_for_user user) mb mc md)
        (solve (round1Spec (get_preferences_for_user user) mb mc md)).x
        (solve (round1Spec (get_preferences_for_user user) mb mc md)).y := by
  have hf2 := hs _ h2
  have hf1 : Feasible (round1Spec (get_preferences_for_user user) mb mc md)
      (solve (round2Spec solve (get_preferences_for_user user) mb mc md)).x
      (solve (round2Spec solve (get_preferences_for_user user) mb mc md)).y :=
    feasible_drop_exclude CLASSES (get_preferences_for_user user) mb mc md
      DIVERSITY_BONUS _ _ _ hf2
  exact ho (round1Spec (get_preferences_for_user user) mb mc md) _ _ h1 hf1

/-- Witness for C6 at the concrete tie-breaking oracle: objective 23 in round
2 against objective 25 in round 1. -/
theorem C6_monotonic_objective_witness :
    SolverSound solveObad ∧ SolverOptimal solveObad ∧
    objective (round2Spec solveObad (get_preferences_for_user UserArg.byNone) 50 3 150)
        (solveObad (round2Spec solveObad (get_preferences_for_user UserArg.byNone) 50 3 150)).x
        (solveObad (round2Spec solveObad (get_preferences_for_user UserArg.byNone) 50 3 150)).y ≤
      objective (round1Spec (get_preferences_for_user UserArg.byNone) 50 3 150)
        (solveObad (round1Spec (get_preferences_for_user UserArg.byNone) 50 3 150)).x
        (solveObad (round1Spec (get_preferences_for_user UserArg.byNone) 50 3 150)).y :=
  ⟨solveObad_sound, solveObad_optimal,
   C6_monotonic_objective solveObad solveObad_sound solveObad_optimal UserArg.byNone
     50 3 150 (by decide) (by decide)⟩

/-- Claim C1: over all membership assignments of the six-class catalog under
the scenario constraints, the objective is at most 25 and only the selection
`{HIIT, Pilates, Zumba}` (with its forced indicators) attains 25; that
selection is feasible with objective exactly 25; and any sound, optimal
oracle run through `recommend_for_user` returns it as the rank-1 plan with
total price 50, duration 150, satisfaction 21, categories
`{mind_body, cardio}`, and objective value 25. -/
theorem C1_rank1_unique_optimal (solve : ProblemSpec → SolveResult)
    (hs : SolverSound solve) (ho : SolverOptimal solve)
    (h1 : (solve (round1Spec none 50 3 150)).status = 1) :
    (∀ S ∈ class_names.sublists, ∀ T ∈ (get_categories CLASSES).sublists,
       Feasible spec1 (memb S) (memb T) →
         (objective spec1 (memb S) (memb T) ≤ 25 ∧
          (objective spec1 (memb S) (memb T) = 25 → S = ["HIIT", "Pilates", "Zumba"]))) ∧
    Feasible spec1 xHPZ yHPZ ∧
    objective spec1 xHPZ yHPZ = 25 ∧
    get_solution CLASSES (solve (round1Spec none 50 3 150)).x none =
      (["HIIT", "Pilates", "Zumba"], 50, 150, 21, ["mind_body", "cardio"]) ∧
    objective (round1Spec none 50 3 150) (solve (round1Spec none 50 3 150)).x
      (solve (round1Spec none 50 3 150)).y = 25 ∧
    (recommend_for_user solve UserArg.byNone 50 3 150).1 =
      some ["HIIT", "Pilates", "Zumba"] ∧
    (recommend_for_user solve UserArg.byNone 50 3 150).2.1 = some 21 := by
  have hid := rank1_identified solve hs ho h1
  have hrec : (CLASSES.map (fun p => p.1)).filter (solve (round1Spec none 50 3 150)).x =
      ["HIIT", "Pilates", "Zumba"] := hid.2
  have hsol : get_solution CLASSES (solve (round1Spec none 50 3 150)).x none =
      (["HIIT", "Pilates", "Zumba"], 50, 150, 21, ["mind_body", "cardio"]) := by
    show ((CLASSES.map (fun p => p.1)).filter (solve (round1Spec none 50 3 150)).x,
      (((CLASSES.map (fun p => p.1)).filter (solve (round1Spec none 50 3 150)).x).map
        (fun c => (lookup_info CLASSES c).price)).sum,
      (((CLASSES.map (fun p => p.1)).filter (solve (round1Spec none 50 3 150)).x).map
        (fun c => (lookup_info CLASSES c).duration)).sum,
      (((CLASSES.map (fun p => p.1)).filter (solve (round1Spec none 50 3 150)).x).map
        (fun c => get_score c none)).sum,
      (((CLASSES.map (fun p => p.1)).filter (solve (round1Spec none 50 3 150)).x).map
        (fun c => (lookup_info CLASSES c).category)).dedup) = _
    rw [hrec]
    decide
  have hfirst : (recommend_for_user solve UserArg.byNone 50 3 150).1 =
      some ["HIIT", "Pilates", "Zumba"] ∧
      (recommend_for_user solve UserArg.byNone 50 3 150).2.1 = some 21 := by
    simp only [recommend_for_user, get_preferences_for_user]
    rw [if_neg (fun hn => hn h1)]
    by_cases hr2 : (solve (round2Spec solve none 50 3 150)).status ≠ 1
    · rw [if_pos hr2]
      constructor
      · show some (get_solution CLASSES (solve (round1Spec none 50 3 150)).x none).1 = _
        rw [hsol]
      · show some (get_solution CLASSES
          (solve (round1Spec none 50 3 150)).x none).2.2.2.1 = _
        rw [hsol]
    · rw [if_neg hr2]
      constructor
      · show some (get_solution CLASSES (solve (round1Spec none 50 3 150)).x none).1 = _
        rw [hsol]
      · show some (get_solution CLASSES
          (solve (round1Spec none 50 3 150)).x none).2.2.2.1 = _
        rw [hsol]
  exact ⟨master_spec1, by decide, by decide, hsol, hid.1, hfirst.1, hfirst.2⟩

/-- Witness for C1 at a concrete sound, optimal oracle. -/
theorem C1_rank1_unique_optimal_witness :
    SolverSound solveO1 ∧ SolverOptimal solveO1 ∧
    (solveO1 (round1Spec none 50 3 150)).status = 1 ∧
    get_solution CLASSES (solveO1 (round1Spec none 50 3 150)).x none =
      (["HIIT", "Pilates", "Zumba"], 50, 150, 21, ["mind_body", "cardio"]) ∧
    (recommend_for_user solveO1 UserArg.byNone 50 3 150).1 =
      some ["HIIT", "Pilates", "Zumba"] :=
  ⟨solveO1_sound, solveO1_optimal, by decide,
   (C1_rank1_unique_optimal solveO1 solveO1_sound solveO1_optimal (by decide)).2.2.2.1,
   (C1_rank1_unique_optimal solveO1 solveO1_sound solveO1_optimal
     (by decide)).2.2.2.2.2.1⟩

/-- Counterexample to claim C9 as stated: the code applies no tie-break of
its own; a sound, optimal oracle may legitimately return `{HIIT, Boxing}`
(objective 23, tied with `{Yoga, Spinning, Zumba}`) and the rank-2 plan is
then not `{Yoga, Spinning, Zumba}`. -/
theorem C9_rank2_tiebreak_counterexample :
    SolverSound solveObad ∧ SolverOptimal solveObad ∧
    (recommend_for_user solveObad UserArg.byNone 50 3 150).2.2.1 =
      some ["HIIT", "Boxing"] ∧
    ¬ (∀ c : String, c ∈ (["HIIT", "Boxing"] : List String) ↔
        c ∈ (["Yoga", "Spinning", "Zumba"] : List String)) := by
  refine ⟨solveObad_sound, solveObad_optimal, by decide, ?_⟩
  intro h
  have hm := (h "HIIT").1 (by decide)
  exact absurd hm (by decide)

/-- Claim C9 amended: under a sound, optimal oracle, the round-2 objective is
exactly 23, and the rank-2 plan is one of the two tied optima — either
`{Yoga, Spinning, Zumba}` (price 49, duration 150, satisfaction 19,
categories `{mind_body, cardio}`) or `{HIIT, Boxing}` (price 45, duration
105, satisfaction 19, categories `{cardio, strength}`); which one is decided
by the oracle, not by any tie-break in the code. -/
theorem C9_rank2_amended (solve : ProblemSpec → SolveResult)
    (hs : SolverSound solve) (ho : SolverOptimal solve)
    (h1 : (solve (round1Spec none 50 3 150)).status = 1)
    (h2 : (solve (round2Spec solve none 50 3 150)).status = 1) :
    objective (round2Spec solve none 50 3 150)
        (solve (round2Spec solve none 50 3 150)).x
        (solve (round2Spec solve none 50 3 150)).y = 23 ∧
    (((recommend_for_user solve UserArg.byNone 50 3 150).2.2.1 =
        some ["Yoga", "Spinning", "Zumba"] ∧
      get_solution CLASSES (solve (round2Spec solve none 50 3 150)).x none =
        (["Yoga", "Spinning", "Zumba"], 49, 150, 19, ["mind_body", "cardio"])) ∨
     ((recommend_for_user solve UserArg.byNone 50 3 150).2.2.1 =
        some ["HIIT", "Boxing"] ∧
      get_solution CLASSES (solve (round2Spec solve none 50 3 150)).x none =
        (["HIIT", "Boxing"], 45, 105, 19, ["cardio", "strength"]))) := by
  have he2 := round2Spec_eq_spec2 solve hs ho h1
  have h2s : (solve spec2).status = 1 := by rw [← he2]; exact h2
  have hid := rank2_identified solve hs ho h2s
  have hcomp : ∀ L : List String,
      (CLASSES.map (fun p => p.1)).filter (solve spec2).x = L →
      (recommend_for_user solve UserArg.byNone 50 3 150).2.2.1 = some L := by
    intro L hL
    simp only [recommend_for_user, get_preferences_for_user]
    rw [if_neg (fun hn => hn h1), if_neg (fun hn => hn h2)]
    show some (get_solution CLASSES (solve (round2Spec solve none 50 3 150)).x none).1 =
      some L
    rw [he2]
    show some ((CLASSES.map (fun p => p.1)).filter (solve spec2).x) = some L
    rw [hL]
  constructor
  · rw [he2]
    exact hid.1
  · rcases hid.2 with hY | hB
    · have hYm : (CLASSES.map (fun p => p.1)).filter (solve spec2).x =
          ["Yoga", "Spinning", "Zumba"] := hY
      refine Or.inl ⟨hcomp _ hY, ?_⟩
      rw [he2]
      show ((CLASSES.map (fun p => p.1)).filter (solve spec2).x,
        (((CLASSES.map (fun p => p.1)).filter (solve spec2).x).map
          (fun c => (lookup_info CLASSES c).price)).sum,
        (((CLASSES.map (fun p => p.1)).filter (solve spec2).x).map
          (fun c => (lookup_info CLASSES c).duration)).sum,
        (((CLASSES.map (fun p => p.1)).filter (solve spec2).x).map
          (fun c => get_score c none)).sum,
        (((CLASSES.map (fun p => p.1)).filter (solve spec2).x).map
          (fun c => (lookup_info CLASSES c).category)).dedup) = _
      rw [hYm]
      decide
    · have hBm : (CLASSES.map (fun p => p.1)).filter (solve spec2).x =
          ["HIIT", "Boxing"] := hB
      refine Or.inr ⟨hcomp _ hB, ?_⟩
      rw [he2]
      show ((CLASSES.map (fun p => p.1)).filter (solve spec2).x,
        (((CLASSES.map (fun p => p.1)).filter (solve spec2).x).map
          (fun c => (lookup_info CLASSES c).price)).sum,
        (((CLASSES.map (fun p => p.1)).filter (solve spec2).x).map
          (fun c => (lookup_info CLASSES c).duration)).sum,
        (((CLASSES.map (fun p => p.1)).filter (solve spec2).x).map
          (fun c => get_score c none)).sum,
        (((CLASSES.map (fun p => p.1)).filter (solve spec2).x).map
          (fun c => (lookup_info CLASSES c).category)).dedup) = _
      rw [hBm]
      decide

/-- Witness for the amended C9 at the concrete oracle resolving the tie to
`{HIIT, Boxing}`. -/
theorem C9_rank2_amended_witness :
    SolverSound solveObad ∧ SolverOptimal solveObad ∧
    objective (round2Spec solveObad none 50 3 150)
        (solveObad (round2Spec solveObad none 50 3 150)).x
        (solveObad (round2Spec solveObad none 50 3 150)).y = 23 :=
  ⟨solveObad_sound, solveObad_optimal,
   (C9_rank2_amended solveObad solveObad_sound solveObad_optimal
     (by decide) (by decide)).1⟩

/-- Counterexample to claim C3 as stated: with an override dict naming the
unknown id "Rowing", `recommend_for_user` does not fail before solving — it
consults the (sound, optimal) oracle and returns a normal recommendation,
and the unknown entry changes no catalog class's effective score. -/
theorem C3_unknown_override_counterexample :
    SolverSound solveR ∧ SolverOptimal solveR ∧
    recommend_for_user solveR (UserArg.byDict [("Rowing", 10)]) 50 3 150 =
      (some ["HIIT", "Pilates", "Zumba"], some 21, none, none) ∧
    (∀ q ∈ CLASSES, get_score q.1 (some [("Rowing", 10)]) = get_score q.1 none) :=
  ⟨solveR_sound, solveR_optimal, by decide, by decide⟩

/-- Claim C3 amended: the code validates nothing; override entries whose keys
are not catalog ids are silently ignored — removing them leaves the effective
score of every catalog class unchanged, and the request proceeds to the
solver normally. -/
theorem C3_unknown_override_amended (m : PrefMap) (c : String)
    (hc : c ∈ CLASSES.map (fun p => p.1)) :
    get_score c (some m) =
      get_score c (some (m.filter
        (fun e => decide (e.1 ∈ CLASSES.map (fun p => p.1))))) := by
  simp only [get_score]
  rw [← find?_filter_catalog m c hc]

/-- Witness for the amended C3 at the dict `{"Rowing": 10}` and the catalog
class "Yoga". -/
theorem C3_unknown_override_amended_witness :
    ("Yoga" ∈ CLASSES.map (fun p => p.1)) ∧
    get_score "Yoga" (some [("Rowing", 10)]) =
      get_score "Yoga" (some (([("Rowing", 10)] : PrefMap).filter
        (fun e => decide (e.1 ∈ CLASSES.map (fun p => p.1))))) :=
  ⟨by decide, C3_unknown_override_amended [("Rowing", 10)] "Yoga" (by decide)⟩
